import Mathlib

/-!
# srsenb::pdcp_nr : per-connection PDCP entity manager

A shallow embedding of `srsenb/src/stack/upper/pdcp_nr.cc`.

* The manager (`pdcp_nr`) owns `users`, a `std::map` from RNTI to a
  `user_interface` (three adapters and a `std::unique_ptr<srsran::pdcp>`).
  The map is a key-ordered association list.
* `srsran::pdcp` is an external class.  An entity is represented by its
  constructor arguments and the sequence of member calls it has received.
* Everything observable that the manager does (calls on entities, calls on
  the logger) is appended to `trace`, in program order.
* Dereferencing a null `unique_ptr` is a fault; a faulting operation returns
  `Outcome.fault` carrying the manager state at the dereference.
-/

namespace srsenb

/-! ## Data model -/

/-- Values of `srsran::srsran_direction_t`. -/
inductive srsran_direction_t where
  | DIRECTION_NONE
  | DIRECTION_TX
  | DIRECTION_RX
  | DIRECTION_TXRX
deriving DecidableEq, Repr

/-- Modelled from the spec: `pdcp_nr::user_interface_rlc` is declared in `pdcp_nr.h`, which is
not among the sources.  The downstream-link adapter stores the owning connection id and a
reference to the link collaborator (`none` is the null pointer, `some a` the object at `a`). -/
structure user_interface_rlc where
  rnti : Nat
  rlc : Option Nat
deriving DecidableEq, Repr

/-- Modelled from the spec: `pdcp_nr::user_interface_sdap` (declared in `pdcp_nr.h`): the
data-adaptation adapter, a connection id and a reference to the SDAP collaborator. -/
structure user_interface_sdap where
  rnti : Nat
  sdap : Option Nat
deriving DecidableEq, Repr

/-- Modelled from the spec: `pdcp_nr::user_interface_rrc` (declared in `pdcp_nr.h`): the
control-plane adapter, a connection id and a reference to the RRC collaborator. -/
structure user_interface_rrc where
  rnti : Nat
  rrc : Option Nat
deriving DecidableEq, Repr

/-- The member functions of `srsran::pdcp` that the manager calls, with their arguments.
Payloads and sequence-number vectors are lists of numbers; configuration objects are
represented by a number standing for their value. -/
inductive pdcp_call where
  | init (rlc_itf : user_interface_rlc) (rrc_itf : user_interface_rrc)
      (sdap_itf : user_interface_sdap)
  | stop
  | add_bearer (lcid : Nat) (cfg : Nat)
  | reset
  | config_security (lcid : Nat) (sec_cfg : Nat)
  | enable_integrity (lcid : Nat) (direction : srsran_direction_t)
  | enable_encryption (lcid : Nat) (direction : srsran_direction_t)
  | write_pdu (lcid : Nat) (sdu : List Nat)
  | write_sdu (lcid : Nat) (sdu : List Nat)
  | notify_delivery (lcid : Nat) (pdcp_sns : List Nat)
  | notify_failure (lcid : Nat) (pdcp_sns : List Nat)
deriving DecidableEq, Repr

/-- Modelled from the spec: the protocol entity `srsran::pdcp` is an external collaborator.
An entity is the pair of its constructor arguments and the member calls made on it since
construction, oldest first. -/
structure pdcp where
  task_sched : Nat
  name : String
  calls : List pdcp_call
deriving DecidableEq, Repr

/-- Modelled from the spec: `pdcp_nr::user_interface` (declared in `pdcp_nr.h`): one connection
entry, the three adapters and the owning pointer to the entity (`none` is a null
`unique_ptr`). -/
structure user_interface where
  rlc_itf : user_interface_rlc
  sdap_itf : user_interface_sdap
  rrc_itf : user_interface_rrc
  pdcp : Option pdcp
deriving DecidableEq, Repr

/-- Modelled from the spec: `user_interface` is declared in `pdcp_nr.h`, which is not among the
sources.  This is the entry that `std::map::operator[]` creates for a missing key: a
value-initialised `user_interface`, that is adapters with id 0 and a null collaborator, and
a null entity pointer (the `std::unique_ptr` default). -/
def default_user_interface : user_interface :=
  { rlc_itf := { rnti := 0, rlc := none }
    sdap_itf := { rnti := 0, sdap := none }
    rrc_itf := { rnti := 0, rrc := none }
    pdcp := none }

/-- Modelled from the spec: `pdcp_nr_args_t` (declared outside the sources): the configuration
recognised at `init`, log verbosity level and payload-dump size limit. -/
structure pdcp_nr_args_t where
  log_level : String
  log_hex_limit : Int
deriving DecidableEq, Repr

/-- What the manager does that is visible outside it, in program order. -/
inductive Event where
  | logger_set_level (level : String)
  | logger_set_hex_dump_max_size (limit : Int)
  | logger_error (fmt : String) (rnti : Nat)
  | pdcp_new (rnti : Nat) (task_sched : Nat) (name : String)
  | pdcp_call (rnti : Nat) (c : pdcp_call)
deriving DecidableEq, Repr

/-- Modelled from the spec: the data members of `pdcp_nr` (declared in `pdcp_nr.h`), together
with the trace of observable events. -/
structure pdcp_nr where
  task_sched : Nat
  logname : String
  m_args : pdcp_nr_args_t
  m_rlc : Option Nat
  m_rrc : Option Nat
  m_sdap : Option Nat
  users : List (Nat × user_interface)
  trace : List Event
deriving DecidableEq, Repr

/-- Result of a member function: normal return, or a null-pointer dereference.  In both
cases the manager state reached is carried along. -/
inductive Outcome where
  | ok (m : pdcp_nr)
  | fault (m : pdcp_nr)
deriving DecidableEq, Repr

/-- Sequencing: a fault ends the execution. -/
def Outcome.bind (o : Outcome) (f : pdcp_nr → Outcome) : Outcome :=
  match o with
  | Outcome.ok m => f m
  | Outcome.fault m => Outcome.fault m

/-- The manager state carried by an outcome. -/
def Outcome.state (o : Outcome) : pdcp_nr :=
  match o with
  | Outcome.ok m => m
  | Outcome.fault m => m

/-! ## The `std::map` operations used on `users` -/

/-- Lookup of the element stored under `k`. -/
def users_find : List (Nat × user_interface) → Nat → Option user_interface
  | [], _ => none
  | (k1, e) :: t, k => if k1 = k then some e else users_find t k

/-- The `count` member: 1 when an element with key `k` exists, 0 otherwise. -/
def users_count (t : List (Nat × user_interface)) (k : Nat) : Nat :=
  match users_find t k with
  | some _ => 1
  | none => 0

/-- Insertion of a new element at its place in key order. -/
def users_insert : List (Nat × user_interface) → Nat → user_interface →
    List (Nat × user_interface)
  | [], k, v => [(k, v)]
  | (k1, e) :: t, k, v =>
    if k < k1 then (k, v) :: (k1, e) :: t else (k1, e) :: users_insert t k v

/-- The `operator[]` member: the element under `k`, inserted value-initialised when missing.
Returns the map after the access and the element referred to. -/
def users_index (t : List (Nat × user_interface)) (k : Nat) :
    List (Nat × user_interface) × user_interface :=
  match users_find t k with
  | some e => (t, e)
  | none => (users_insert t k default_user_interface, default_user_interface)

/-- Assignment through a reference to the element under `k`. -/
def users_update : List (Nat × user_interface) → Nat → (user_interface → user_interface) →
    List (Nat × user_interface)
  | [], _, _ => []
  | (k1, e) :: t, k, f =>
    if k1 = k then (k1, f e) :: users_update t k f else (k1, e) :: users_update t k f

/-- The statement `users[k].field = value`: access through `operator[]`, then assignment. -/
def users_assign (t : List (Nat × user_interface)) (k : Nat)
    (f : user_interface → user_interface) : List (Nat × user_interface) :=
  users_update (users_index t k).1 k f

/-- The `erase(key)` member: removes the element stored under `k`, if any. -/
def users_erase : List (Nat × user_interface) → Nat → List (Nat × user_interface)
  | [], _ => []
  | (k1, e) :: t, k => if k1 = k then users_erase t k else (k1, e) :: users_erase t k

/-- The `clear` member. -/
def users_clear (_t : List (Nat × user_interface)) : List (Nat × user_interface) := []

/-- The representation invariant of `std::map`: keys strictly ascending (hence unique). -/
def users_wf (t : List (Nat × user_interface)) : Prop :=
  (t.map Prod.fst).Pairwise (fun a b => a < b)

/-- Number of elements stored under key `k`. -/
def users_entries (t : List (Nat × user_interface)) (k : Nat) : Nat :=
  (t.filter (fun p => decide (p.1 = k))).length

/-! ## The manager -/

/-- The constructor `pdcp_nr::pdcp_nr(task_sched_, logname)`: no users, collaborators unset. -/
def pdcp_nr.construct (task_sched_ : Nat) (logname : String) : pdcp_nr :=
  { task_sched := task_sched_
    logname := logname
    m_args := { log_level := "", log_hex_limit := 0 }
    m_rlc := none
    m_rrc := none
    m_sdap := none
    users := []
    trace := [] }

/-- Member `pdcp_nr::init`. -/
def pdcp_nr.init (m : pdcp_nr) (args_ : pdcp_nr_args_t) (rlc_ rrc_ sdap_ : Option Nat) :
    pdcp_nr :=
  { m with
    m_args := args_
    m_rlc := rlc_
    m_rrc := rrc_
    m_sdap := sdap_
    trace := m.trace ++ [Event.logger_set_level args_.log_level,
      Event.logger_set_hex_dump_max_size args_.log_hex_limit] }

/-- The expression `users[rnti].pdcp->f(args)`: access through `operator[]`, dereference of
the entity pointer, member call. -/
def pdcp_nr.call_pdcp (m : pdcp_nr) (rnti : Nat) (c : pdcp_call) : Outcome :=
  match (users_index m.users rnti).2.pdcp with
  | none => Outcome.fault { m with users := (users_index m.users rnti).1 }
  | some p =>
    Outcome.ok { m with
      users := users_update (users_index m.users rnti).1 rnti
        (fun e => { e with pdcp := some { p with calls := p.calls ++ [c] } })
      trace := m.trace ++ [Event.pdcp_call rnti c] }

/-- The loop of `pdcp_nr::stop`: `user.second.pdcp->stop()` for each element, in key order. -/
def pdcp_nr.stop_loop (m : pdcp_nr) : List (Nat × user_interface) → Outcome
  | [] => Outcome.ok m
  | (k, e) :: rest =>
    match e.pdcp with
    | none => Outcome.fault m
    | some p =>
      pdcp_nr.stop_loop
        { m with
          users := users_update m.users k
            (fun e1 => { e1 with pdcp := some { p with calls := p.calls ++ [pdcp_call.stop] } })
          trace := m.trace ++ [Event.pdcp_call k pdcp_call.stop] }
        rest

/-- Member `pdcp_nr::stop`. -/
def pdcp_nr.stop (m : pdcp_nr) : Outcome :=
  (m.stop_loop m.users).bind (fun m1 => Outcome.ok { m1 with users := users_clear m1.users })

/-- Member `pdcp_nr::add_user`. -/
def pdcp_nr.add_user (m : pdcp_nr) (rnti : Nat) : Outcome :=
  if users_count m.users rnti = 0 then
    let u1 := users_assign m.users rnti
      (fun e => { e with pdcp := some { task_sched := m.task_sched, name := "PDCP", calls := [] } })
    let u2 := users_assign u1 rnti (fun e => { e with rlc_itf := { e.rlc_itf with rnti := rnti } })
    let u3 := users_assign u2 rnti (fun e => { e with sdap_itf := { e.sdap_itf with rnti := rnti } })
    let u4 := users_assign u3 rnti (fun e => { e with rrc_itf := { e.rrc_itf with rnti := rnti } })
    let u5 := users_assign u4 rnti (fun e => { e with rlc_itf := { e.rlc_itf with rlc := m.m_rlc } })
    let u6 := users_assign u5 rnti (fun e => { e with rrc_itf := { e.rrc_itf with rrc := m.m_rrc } })
    let u7 := users_assign u6 rnti
      (fun e => { e with sdap_itf := { e.sdap_itf with sdap := m.m_sdap } })
    let m7 : pdcp_nr :=
      { m with users := u7, trace := m.trace ++ [Event.pdcp_new rnti m.task_sched "PDCP"] }
    let e7 := (users_index u7 rnti).2
    m7.call_pdcp rnti (pdcp_call.init e7.rlc_itf e7.rrc_itf e7.sdap_itf)
  else
    Outcome.ok m

/-- Member `pdcp_nr::rem_user`. -/
def pdcp_nr.rem_user (m : pdcp_nr) (rnti : Nat) : Outcome :=
  Outcome.ok { m with users := users_erase m.users rnti }

/-- Member `pdcp_nr::add_bearer`. -/
def pdcp_nr.add_bearer (m : pdcp_nr) (rnti lcid cfg : Nat) : Outcome :=
  if users_count m.users rnti ≠ 0 then
    m.call_pdcp rnti (pdcp_call.add_bearer lcid cfg)
  else
    Outcome.ok m

/-- Member `pdcp_nr::reset`. -/
def pdcp_nr.reset (m : pdcp_nr) (rnti : Nat) : Outcome :=
  if users_count m.users rnti ≠ 0 then
    m.call_pdcp rnti pdcp_call.reset
  else
    Outcome.ok m

/-- Member `pdcp_nr::config_security`. -/
def pdcp_nr.config_security (m : pdcp_nr) (rnti lcid sec_cfg : Nat) : Outcome :=
  if users_count m.users rnti ≠ 0 then
    m.call_pdcp rnti (pdcp_call.config_security lcid sec_cfg)
  else
    Outcome.ok m

/-- Member `pdcp_nr::enable_integrity`. -/
def pdcp_nr.enable_integrity (m : pdcp_nr) (rnti lcid : Nat) : Outcome :=
  m.call_pdcp rnti (pdcp_call.enable_integrity lcid srsran_direction_t.DIRECTION_TXRX)

/-- Member `pdcp_nr::enable_encryption`. -/
def pdcp_nr.enable_encryption (m : pdcp_nr) (rnti lcid : Nat) : Outcome :=
  m.call_pdcp rnti (pdcp_call.enable_encryption lcid srsran_direction_t.DIRECTION_TXRX)

/-- A call of `logger.error(fmt, rnti)`. -/
def pdcp_nr.logger_error (m : pdcp_nr) (fmt : String) (rnti : Nat) : pdcp_nr :=
  { m with trace := m.trace ++ [Event.logger_error fmt rnti] }

/-- Member `pdcp_nr::write_pdu`. -/
def pdcp_nr.write_pdu (m : pdcp_nr) (rnti lcid : Nat) (sdu : List Nat) : Outcome :=
  if users_count m.users rnti ≠ 0 then
    m.call_pdcp rnti (pdcp_call.write_pdu lcid sdu)
  else
    Outcome.ok (m.logger_error "Can't write PDU. RNTI=0x%X doesn't exist." rnti)

/-- Member `pdcp_nr::notify_delivery`. -/
def pdcp_nr.notify_delivery (m : pdcp_nr) (rnti lcid : Nat) (pdcp_sns : List Nat) : Outcome :=
  if users_count m.users rnti ≠ 0 then
    m.call_pdcp rnti (pdcp_call.notify_delivery lcid pdcp_sns)
  else
    Outcome.ok (m.logger_error "Can't notify Ack of PDU. RNTI=0x%X doesn't exist." rnti)

/-- Member `pdcp_nr::notify_failure`. -/
def pdcp_nr.notify_failure (m : pdcp_nr) (rnti lcid : Nat) (pdcp_sns : List Nat) : Outcome :=
  if users_count m.users rnti ≠ 0 then
    m.call_pdcp rnti (pdcp_call.notify_failure lcid pdcp_sns)
  else
    Outcome.ok (m.logger_error "Can't notify Ack of PDU. RNTI=0x%X doesn't exist." rnti)

/-- Member `pdcp_nr::write_sdu`. -/
def pdcp_nr.write_sdu (m : pdcp_nr) (rnti lcid : Nat) (sdu : List Nat) : Outcome :=
  if users_count m.users rnti ≠ 0 then
    m.call_pdcp rnti (pdcp_call.write_sdu lcid sdu)
  else
    Outcome.ok (m.logger_error "Can't write SDU. RNTI=0x%X doesn't exist." rnti)

/-! ## Sequences of public operations -/

/-- The public operations of the manager that take effect after `init`. -/
inductive Op where
  | add_user (rnti : Nat)
  | rem_user (rnti : Nat)
  | stop
  | add_bearer (rnti lcid cfg : Nat)
  | reset (rnti : Nat)
  | config_security (rnti lcid sec_cfg : Nat)
  | enable_integrity (rnti lcid : Nat)
  | enable_encryption (rnti lcid : Nat)
  | write_pdu (rnti lcid : Nat) (sdu : List Nat)
  | write_sdu (rnti lcid : Nat) (sdu : List Nat)
  | notify_delivery (rnti lcid : Nat) (pdcp_sns : List Nat)
  | notify_failure (rnti lcid : Nat) (pdcp_sns : List Nat)
deriving DecidableEq, Repr

/-- One call of a public operation. -/
def pdcp_nr.step (m : pdcp_nr) : Op → Outcome
  | Op.add_user rnti => m.add_user rnti
  | Op.rem_user rnti => m.rem_user rnti
  | Op.stop => m.stop
  | Op.add_bearer rnti lcid cfg => m.add_bearer rnti lcid cfg
  | Op.reset rnti => m.reset rnti
  | Op.config_security rnti lcid sec_cfg => m.config_security rnti lcid sec_cfg
  | Op.enable_integrity rnti lcid => m.enable_integrity rnti lcid
  | Op.enable_encryption rnti lcid => m.enable_encryption rnti lcid
  | Op.write_pdu rnti lcid sdu => m.write_pdu rnti lcid sdu
  | Op.write_sdu rnti lcid sdu => m.write_sdu rnti lcid sdu
  | Op.notify_delivery rnti lcid sns => m.notify_delivery rnti lcid sns
  | Op.notify_failure rnti lcid sns => m.notify_failure rnti lcid sns

/-- A sequence of calls, oldest first; execution ends at the first fault. -/
def run : List Op → pdcp_nr → Outcome
  | [], m => Outcome.ok m
  | op :: ops, m => (m.step op).bind (fun m1 => run ops m1)

/-- An entry stored under key `k` is well bound: its three adapters carry `k` and the
collaborators `rlc`, `rrc`, `sdap`, and it owns an entity. -/
def entry_bound (rlc rrc sdap : Option Nat) (k : Nat) (e : user_interface) : Prop :=
  e.rlc_itf = { rnti := k, rlc := rlc } ∧ e.rrc_itf = { rnti := k, rrc := rrc } ∧
    e.sdap_itf = { rnti := k, sdap := sdap } ∧ e.pdcp.isSome = true

instance (rlc rrc sdap : Option Nat) (k : Nat) (e : user_interface) :
    Decidable (entry_bound rlc rrc sdap k e) := by
  unfold entry_bound
  exact inferInstance

/-- The table invariant: every entry is well bound to its own key and to the manager's
collaborators. -/
def table_invariant (m : pdcp_nr) : Prop :=
  ∀ p ∈ m.users, entry_bound m.m_rlc m.m_rrc m.m_sdap p.1 p.2

instance (m : pdcp_nr) : Decidable (table_invariant m) := by
  unfold table_invariant
  exact inferInstance

/-- Every entry of the table owns an entity (no null entity pointer). -/
def all_own_entity (t : List (Nat × user_interface)) : Prop :=
  ∀ p ∈ t, p.2.pdcp.isSome = true

instance (t : List (Nat × user_interface)) : Decidable (all_own_entity t) := by
  unfold all_own_entity
  exact inferInstance

/-- The entry `add_user` builds for `rnti` in manager `m`. -/
def fresh_entry (m : pdcp_nr) (rnti : Nat) : user_interface :=
  { rlc_itf := { rnti := rnti, rlc := m.m_rlc }
    sdap_itf := { rnti := rnti, sdap := m.m_sdap }
    rrc_itf := { rnti := rnti, rrc := m.m_rrc }
    pdcp := some
      { task_sched := m.task_sched
        name := "PDCP"
        calls := [pdcp_call.init { rnti := rnti, rlc := m.m_rlc } { rnti := rnti, rrc := m.m_rrc }
          { rnti := rnti, sdap := m.m_sdap }] } }

/-- The events `add_user` emits when it creates the entry for `rnti`. -/
def fresh_events (m : pdcp_nr) (rnti : Nat) : List Event :=
  [Event.pdcp_new rnti m.task_sched "PDCP",
   Event.pdcp_call rnti (pdcp_call.init { rnti := rnti, rlc := m.m_rlc }
     { rnti := rnti, rrc := m.m_rrc } { rnti := rnti, sdap := m.m_sdap })]

/-- An event is a member call on a protocol entity. -/
def Event.is_pdcp_call : Event → Bool
  | Event.pdcp_call _ _ => true
  | _ => false

/-! ## The adapters -/

/-- Modelled from the spec: the link collaborator `rlc_interface_pdcp_nr` is declared outside the
sources; its two state queries answer per connection id and bearer id. -/
structure rlc_interface_pdcp_nr where
  rb_is_um : Nat → Nat → Bool
  sdu_queue_is_full : Nat → Nat → Bool

/-- What an adapter member does that is visible outside it: calls on the collaborator at a
given address, text written to `stderr`, error reports. -/
inductive AdapterEvent where
  | rlc_write_sdu (rlc : Nat) (rnti lcid : Nat) (sdu : List Nat)
  | rrc_write_pdu (rrc : Nat) (rnti lcid : Nat) (pdu : List Nat)
  | sdap_write_pdu (sdap : Nat) (rnti lcid : Nat) (pdu : List Nat)
  | stderr_print (text : String)
  | error_report (fmt : String) (arg : Nat)
deriving DecidableEq, Repr

/-- An adapter event is a call on a collaborator. -/
def AdapterEvent.is_collaborator_call : AdapterEvent → Bool
  | AdapterEvent.rlc_write_sdu _ _ _ _ => true
  | AdapterEvent.rrc_write_pdu _ _ _ _ => true
  | AdapterEvent.sdap_write_pdu _ _ _ _ => true
  | _ => false

/-- Modelled from the spec: the `ERROR` macro is defined outside the sources; it reports one
error-severity record built from the format string and its argument. -/
def ERROR (fmt : String) (arg : Nat) : List AdapterEvent :=
  [AdapterEvent.error_report fmt arg]

/-- Member `user_interface_sdap::write_pdu`; `none` is a null collaborator dereference. -/
def user_interface_sdap.write_pdu (self : user_interface_sdap) (lcid : Nat) (pdu : List Nat) :
    Option (List AdapterEvent) :=
  match self.sdap with
  | none => none
  | some a => some [AdapterEvent.sdap_write_pdu a self.rnti lcid pdu]

/-- Member `user_interface_rlc::write_sdu`. -/
def user_interface_rlc.write_sdu (self : user_interface_rlc) (lcid : Nat) (sdu : List Nat) :
    Option (List AdapterEvent) :=
  match self.rlc with
  | none => none
  | some a => some [AdapterEvent.rlc_write_sdu a self.rnti lcid sdu]

/-- Member `user_interface_rlc::discard_sdu`. -/
def user_interface_rlc.discard_sdu (_self : user_interface_rlc) (_lcid _discard_sn : Nat) :
    Option (List AdapterEvent) :=
  some [AdapterEvent.stderr_print "discard_sdu method not implemented.\n"]

/-- Member `user_interface_rlc::rb_is_um`; `heap` gives the collaborator object at an
address. -/
def user_interface_rlc.rb_is_um (heap : Nat → rlc_interface_pdcp_nr) (self : user_interface_rlc)
    (lcid : Nat) : Option Bool :=
  match self.rlc with
  | none => none
  | some a => some ((heap a).rb_is_um self.rnti lcid)

/-- Member `user_interface_rlc::sdu_queue_is_full`. -/
def user_interface_rlc.sdu_queue_is_full (heap : Nat → rlc_interface_pdcp_nr)
    (self : user_interface_rlc) (lcid : Nat) : Option Bool :=
  match self.rlc with
  | none => none
  | some a => some ((heap a).sdu_queue_is_full self.rnti lcid)

/-- Member `user_interface_rrc::write_pdu`. -/
def user_interface_rrc.write_pdu (self : user_interface_rrc) (lcid : Nat) (pdu : List Nat) :
    Option (List AdapterEvent) :=
  match self.rrc with
  | none => none
  | some a => some [AdapterEvent.rrc_write_pdu a self.rnti lcid pdu]

/-- Member `user_interface_rrc::write_pdu_bcch_bch`. -/
def user_interface_rrc.write_pdu_bcch_bch (self : user_interface_rrc) (_pdu : List Nat) :
    Option (List AdapterEvent) :=
  some (ERROR "Error: Received BCCH from ue=%d" self.rnti)

/-- Member `user_interface_rrc::write_pdu_bcch_dlsch`. -/
def user_interface_rrc.write_pdu_bcch_dlsch (self : user_interface_rrc) (_pdu : List Nat) :
    Option (List AdapterEvent) :=
  some (ERROR "Error: Received BCCH from ue=%d" self.rnti)

/-- Member `user_interface_rrc::write_pdu_pcch`. -/
def user_interface_rrc.write_pdu_pcch (self : user_interface_rrc) (_pdu : List Nat) :
    Option (List AdapterEvent) :=
  some (ERROR "Error: Received PCCH from ue=%d" self.rnti)

/-! ## Concrete managers used to instantiate the theorems -/

/-- An initialised manager with no connection. -/
def example_init : pdcp_nr :=
  (pdcp_nr.construct 1 "PDCP-NR").init { log_level := "info", log_hex_limit := 32 }
    (some 10) (some 20) (some 30)

/-- An initialised manager on which connections 5 and 3 were added, in this order. -/
def example_two_users : pdcp_nr :=
  (run [Op.add_user 5, Op.add_user 3] example_init).state

/-- The operation returned normally and changed nothing but the trace, to which it appended
`evs`. -/
def only_emits (m : pdcp_nr) (o : Outcome) (evs : List Event) : Prop :=
  o = Outcome.ok { m with trace := m.trace ++ evs }

/-- The operation returned normally, changed nothing but the trace, and the events it
appended contain no member call on a protocol entity. -/
def table_untouched (m : pdcp_nr) (o : Outcome) : Prop :=
  ∃ evs, only_emits m o evs ∧ ∀ ev ∈ evs, Event.is_pdcp_call ev = false

/-- Each of the four data operations on `rnti` returns normally, with one `logger.error`
record carrying `rnti` as its only effect. -/
def data_ops_dropped (m : pdcp_nr) (rnti lcid : Nat) (sdu sns : List Nat) : Prop :=
  m.write_pdu rnti lcid sdu =
      Outcome.ok (m.logger_error "Can't write PDU. RNTI=0x%X doesn't exist." rnti) ∧
  m.write_sdu rnti lcid sdu =
      Outcome.ok (m.logger_error "Can't write SDU. RNTI=0x%X doesn't exist." rnti) ∧
  m.notify_delivery rnti lcid sns =
      Outcome.ok (m.logger_error "Can't notify Ack of PDU. RNTI=0x%X doesn't exist." rnti) ∧
  m.notify_failure rnti lcid sns =
      Outcome.ok (m.logger_error "Can't notify Ack of PDU. RNTI=0x%X doesn't exist." rnti)

/-- The adapter member returned normally and made no call on a collaborator. -/
def no_collaborator_call (r : Option (List AdapterEvent)) : Prop :=
  ∃ evs, r = some evs ∧ ∀ ev ∈ evs, AdapterEvent.is_collaborator_call ev = false

/-- The `stop` calls made on the entities of the entries of `t`, one per entry, in key
order. -/
def stop_events (t : List (Nat × user_interface)) : List Event :=
  t.map (fun p => Event.pdcp_call p.1 pdcp_call.stop)

/-- The manager keeps the collaborators `rlc`, `rrc`, `sdap`, and every entry of its table is
well bound to its key and to them. -/
def manager_invariant (rlc rrc sdap : Option Nat) (m : pdcp_nr) : Prop :=
  m.m_rlc = rlc ∧ m.m_rrc = rrc ∧ m.m_sdap = sdap ∧
    ∀ p ∈ m.users, entry_bound rlc rrc sdap p.1 p.2

/-! ## Facts about the map operations -/

theorem users_find_eq_none_iff (t : List (Nat × user_interface)) (k : Nat) :
    users_find t k = none ↔ ∀ p ∈ t, p.1 ≠ k := by
  induction t with
  | nil => simp [users_find]
  | cons hd tl ih =>
    obtain ⟨k1, e⟩ := hd
    by_cases h : k1 = k
    · simp [users_find, h]
    · simp [users_find, h, ih]

theorem users_count_eq_zero_iff (t : List (Nat × user_interface)) (k : Nat) :
    users_count t k = 0 ↔ users_find t k = none := by
  unfold users_count
  cases users_find t k <;> simp

theorem users_find_insert_self (t : List (Nat × user_interface)) (k : Nat) (v : user_interface)
    (h : users_find t k = none) : users_find (users_insert t k v) k = some v := by
  induction t with
  | nil => simp [users_insert, users_find]
  | cons hd tl ih =>
    obtain ⟨k1, e⟩ := hd
    have hk : k1 ≠ k := by
      intro hk
      simp [users_find, hk] at h
    have htl : users_find tl k = none := by
      simpa [users_find, hk] using h
    by_cases hlt : k < k1
    · simp [users_insert, hlt, users_find]
    · simp [users_insert, hlt, users_find, hk, ih htl]

theorem users_find_insert_other (t : List (Nat × user_interface)) (k k2 : Nat)
    (v : user_interface) (h : k2 ≠ k) :
    users_find (users_insert t k v) k2 = users_find t k2 := by
  induction t with
  | nil => simp [users_insert, users_find, Ne.symm h]
  | cons hd tl ih =>
    obtain ⟨k1, e⟩ := hd
    by_cases hlt : k < k1
    · simp [users_insert, hlt, users_find, Ne.symm h]
    · simp [users_insert, hlt, users_find, ih]

theorem users_update_insert (t : List (Nat × user_interface)) (k : Nat) (v : user_interface)
    (f : user_interface → user_interface) (h : users_find t k = none) :
    users_update (users_insert t k v) k f = users_insert t k (f v) := by
  induction t with
  | nil => simp [users_insert, users_update]
  | cons hd tl ih =>
    obtain ⟨k1, e⟩ := hd
    have hk : k1 ≠ k := by
      intro hk
      simp [users_find, hk] at h
    have htl : users_find tl k = none := by
      simpa [users_find, hk] using h
    have hup : users_update tl k f = tl := by
      clear ih h
      induction tl with
      | nil => simp [users_update]
      | cons hd2 tl2 ih2 =>
        obtain ⟨k3, e3⟩ := hd2
        have hk3 : k3 ≠ k := by
          intro hk3
          simp [users_find, hk3] at htl
        have h2 : users_find tl2 k = none := by
          simpa [users_find, hk3] using htl
        simp [users_update, hk3, ih2 h2]
    by_cases hlt : k < k1
    · simp [users_insert, hlt, users_update, hk, hup]
    · simp [users_insert, hlt, users_update, hk, ih htl]

theorem users_assign_absent (t : List (Nat × user_interface)) (k : Nat)
    (f : user_interface → user_interface) (h : users_find t k = none) :
    users_assign t k f = users_insert t k (f default_user_interface) := by
  simp [users_assign, users_index, h, users_update_insert]

theorem users_assign_inserted (t : List (Nat × user_interface)) (k : Nat) (v : user_interface)
    (f : user_interface → user_interface) (h : users_find t k = none) :
    users_assign (users_insert t k v) k f = users_insert t k (f v) := by
  simp [users_assign, users_index, users_find_insert_self t k v h, users_update_insert t k v f h]

theorem users_entries_insert (t : List (Nat × user_interface)) (k : Nat) (v : user_interface)
    (h : users_find t k = none) : users_entries (users_insert t k v) k = 1 := by
  induction t with
  | nil => simp [users_insert, users_entries]
  | cons hd tl ih =>
    obtain ⟨k1, e⟩ := hd
    have hk : k1 ≠ k := by
      intro hk
      simp [users_find, hk] at h
    have htl : users_find tl k = none := by
      simpa [users_find, hk] using h
    have hnone : users_entries tl k = 0 := by
      have hall := (users_find_eq_none_iff tl k).mp htl
      simp only [users_entries, List.length_eq_zero, List.filter_eq_nil_iff]
      intro p hp
      simpa using hall p hp
    have ih1 := ih htl
    unfold users_entries at ih1 hnone ⊢
    by_cases hlt : k < k1
    · simp [users_insert, hlt, List.filter_cons, hk, hnone]
    · simp [users_insert, hlt, List.filter_cons, hk, ih1]

theorem users_entries_of_wf (t : List (Nat × user_interface)) (k : Nat) (e : user_interface)
    (hwf : users_wf t) (h : users_find t k = some e) : users_entries t k = 1 := by
  induction t with
  | nil => simp [users_find] at h
  | cons hd tl ih =>
    obtain ⟨k1, e1⟩ := hd
    unfold users_wf at hwf
    simp only [List.map_cons, List.pairwise_cons] at hwf
    by_cases hk : k1 = k
    · have hnone : (tl.filter (fun p => decide (p.1 = k))).length = 0 := by
        simp only [List.length_eq_zero, List.filter_eq_nil_iff]
        intro p hp
        have hlt := hwf.1 p.1 (List.mem_map_of_mem Prod.fst hp)
        have : p.1 ≠ k := by omega
        simpa using this
      simp [users_entries, List.filter_cons, hk, hnone]
    · have h1 : users_find tl k = some e := by
        simpa [users_find, hk] using h
      have ih1 := ih hwf.2 h1
      unfold users_entries at ih1 ⊢
      simp [List.filter_cons, hk, ih1]

theorem users_insert_mem (t : List (Nat × user_interface)) (k : Nat) (v : user_interface)
    (p : Nat × user_interface) (hp : p ∈ users_insert t k v) : p = (k, v) ∨ p ∈ t := by
  induction t with
  | nil => simpa [users_insert] using hp
  | cons hd tl ih =>
    obtain ⟨k1, e1⟩ := hd
    by_cases h3 : k < k1
    · simp only [users_insert, h3, if_true, List.mem_cons] at hp
      rcases hp with hp | hp | hp
      · exact Or.inl hp
      · exact Or.inr (List.mem_cons.mpr (Or.inl hp))
      · exact Or.inr (List.mem_cons.mpr (Or.inr hp))
    · simp only [users_insert, h3, if_false, List.mem_cons] at hp
      rcases hp with hp | hp
      · exact Or.inr (List.mem_cons.mpr (Or.inl hp))
      · rcases ih hp with h4 | h4
        · exact Or.inl h4
        · exact Or.inr (List.mem_cons.mpr (Or.inr h4))

theorem users_insert_wf (t : List (Nat × user_interface)) (k : Nat) (v : user_interface)
    (hwf : users_wf t) (h : users_find t k = none) : users_wf (users_insert t k v) := by
  induction t with
  | nil => simp [users_insert, users_wf]
  | cons hd tl ih =>
    obtain ⟨k1, e1⟩ := hd
    have hk : k1 ≠ k := by
      intro hk
      simp [users_find, hk] at h
    have htl : users_find tl k = none := by
      simpa [users_find, hk] using h
    unfold users_wf at hwf ih ⊢
    simp only [List.map_cons, List.pairwise_cons] at hwf
    by_cases hlt : k < k1
    · simp only [users_insert, hlt, if_true, List.map_cons, List.pairwise_cons]
      refine ⟨?_, hwf.1, hwf.2⟩
      intro a ha
      rcases List.mem_cons.mp ha with rfl | ha
      · exact hlt
      · exact lt_trans hlt (hwf.1 a ha)
    · simp only [users_insert, hlt, if_false, List.map_cons, List.pairwise_cons]
      refine ⟨?_, ih hwf.2 htl⟩
      intro a ha
      obtain ⟨p, hp, rfl⟩ := List.mem_map.mp ha
      have hcases : p = (k, v) ∨ p ∈ tl := users_insert_mem tl k v p hp
      rcases hcases with rfl | hmem
      · simp only
        omega
      · exact hwf.1 p.1 (List.mem_map_of_mem Prod.fst hmem)

/-! ## Normal forms of the member functions -/

theorem call_pdcp_present (m : pdcp_nr) (rnti : Nat) (c : pdcp_call) (e : user_interface)
    (p : pdcp) (h : users_find m.users rnti = some e) (hp : e.pdcp = some p) :
    m.call_pdcp rnti c = Outcome.ok { m with
      users := users_update m.users rnti
        (fun e1 => { e1 with pdcp := some { p with calls := p.calls ++ [c] } })
      trace := m.trace ++ [Event.pdcp_call rnti c] } := by
  simp [pdcp_nr.call_pdcp, users_index, h, hp]

theorem call_pdcp_null (m : pdcp_nr) (rnti : Nat) (c : pdcp_call) (e : user_interface)
    (h : users_find m.users rnti = some e) (hp : e.pdcp = none) :
    m.call_pdcp rnti c = Outcome.fault m := by
  simp [pdcp_nr.call_pdcp, users_index, h, hp]

theorem call_pdcp_absent (m : pdcp_nr) (rnti : Nat) (c : pdcp_call)
    (h : users_find m.users rnti = none) :
    m.call_pdcp rnti c =
      Outcome.fault { m with users := users_insert m.users rnti default_user_interface } := by
  simp [pdcp_nr.call_pdcp, users_index, h, default_user_interface]

theorem add_user_absent (m : pdcp_nr) (rnti : Nat) (h : users_find m.users rnti = none) :
    m.add_user rnti = Outcome.ok { m with
      users := users_insert m.users rnti (fresh_entry m rnti)
      trace := m.trace ++ fresh_events m rnti } := by
  have hc : users_count m.users rnti = 0 := (users_count_eq_zero_iff _ _).mpr h
  unfold pdcp_nr.add_user
  rw [if_pos hc]
  simp only []
  rw [users_assign_absent _ _ _ h]
  simp only [users_assign_inserted _ _ _ _ h]
  unfold pdcp_nr.call_pdcp
  simp only [users_index, users_find_insert_self _ _ _ h, users_update_insert _ _ _ _ h]
  simp [fresh_entry, fresh_events, default_user_interface]

theorem add_user_present (m : pdcp_nr) (rnti : Nat) (h : users_count m.users rnti ≠ 0) :
    m.add_user rnti = Outcome.ok m := by
  simp [pdcp_nr.add_user, h]

theorem users_find_erase_self (t : List (Nat × user_interface)) (k : Nat) :
    users_find (users_erase t k) k = none := by
  induction t with
  | nil => simp [users_erase, users_find]
  | cons hd tl ih =>
    obtain ⟨k1, e⟩ := hd
    by_cases hk : k1 = k
    · simp [users_erase, hk, ih]
    · simp [users_erase, hk, users_find, ih]

theorem users_find_erase_other (t : List (Nat × user_interface)) (k k2 : Nat) (h : k2 ≠ k) :
    users_find (users_erase t k) k2 = users_find t k2 := by
  induction t with
  | nil => simp [users_erase, users_find]
  | cons hd tl ih =>
    obtain ⟨k1, e⟩ := hd
    by_cases hk : k1 = k
    · have hk2 : ¬ k = k2 := fun h2 => h h2.symm
      simp [users_erase, hk, users_find, ih, hk2]
    · by_cases hk2 : k1 = k2
      · subst hk2
        simp [users_erase, hk, users_find]
      · simp [users_erase, hk, users_find, hk2, ih]

theorem users_erase_absent (t : List (Nat × user_interface)) (k : Nat)
    (h : users_find t k = none) : users_erase t k = t := by
  induction t with
  | nil => simp [users_erase]
  | cons hd tl ih =>
    obtain ⟨k1, e⟩ := hd
    have hk : k1 ≠ k := by
      intro hk
      simp [users_find, hk] at h
    have htl : users_find tl k = none := by
      simpa [users_find, hk] using h
    simp [users_erase, hk, ih htl]

theorem users_erase_insert (t : List (Nat × user_interface)) (k : Nat) (v : user_interface)
    (h : users_find t k = none) : users_erase (users_insert t k v) k = t := by
  induction t with
  | nil => simp [users_insert, users_erase]
  | cons hd tl ih =>
    obtain ⟨k1, e⟩ := hd
    have hk : k1 ≠ k := by
      intro hk
      simp [users_find, hk] at h
    have htl : users_find tl k = none := by
      simpa [users_find, hk] using h
    by_cases hlt : k < k1
    · simp [users_insert, hlt, users_erase, hk, users_erase_absent tl k htl]
    · simp [users_insert, hlt, users_erase, hk, ih htl]

theorem data_ops_dropped_of_absent (m : pdcp_nr) (rnti lcid : Nat) (sdu sns : List Nat)
    (h : users_count m.users rnti = 0) : data_ops_dropped m rnti lcid sdu sns := by
  simp [data_ops_dropped, pdcp_nr.write_pdu, pdcp_nr.write_sdu, pdcp_nr.notify_delivery,
    pdcp_nr.notify_failure, h]

theorem table_untouched_of_log (m : pdcp_nr) (fmt : String) (rnti : Nat) :
    table_untouched m (Outcome.ok (m.logger_error fmt rnti)) := by
  refine ⟨[Event.logger_error fmt rnti], rfl, ?_⟩
  intro ev hev
  rw [List.mem_singleton] at hev
  subst hev
  rfl

theorem table_untouched_of_same (m : pdcp_nr) : table_untouched m (Outcome.ok m) := by
  refine ⟨[], ?_, ?_⟩
  · simp [only_emits]
  · intro ev hev
    cases hev

theorem stop_loop_ok (l : List (Nat × user_interface)) (m : pdcp_nr)
    (h : all_own_entity l) :
    ∃ u, m.stop_loop l = Outcome.ok { m with users := u, trace := m.trace ++ stop_events l } := by
  induction l generalizing m with
  | nil => exact ⟨m.users, by simp [pdcp_nr.stop_loop, stop_events]⟩
  | cons hd tl ih =>
    obtain ⟨k, e⟩ := hd
    have he : e.pdcp.isSome = true := h (k, e) (List.mem_cons_self _ _)
    obtain ⟨p, hp⟩ := Option.isSome_iff_exists.mp he
    have htl : all_own_entity tl := fun q hq => h q (List.mem_cons_of_mem _ hq)
    simp only [pdcp_nr.stop_loop, hp]
    obtain ⟨u, hu⟩ := ih _ htl
    refine ⟨u, ?_⟩
    rw [hu]
    simp [stop_events]

/-- On an id that has no entry, each of the four data operations only appends one
`logger.error` record carrying the id, while `add_bearer`, `config_security` and `reset`
return with no effect at all. -/
theorem absent_id_effects (m : pdcp_nr) (rnti lcid cfg sec_cfg : Nat) (sdu sns : List Nat)
    (h : users_count m.users rnti = 0) :
    data_ops_dropped m rnti lcid sdu sns ∧
    m.add_bearer rnti lcid cfg = Outcome.ok m ∧
    m.config_security rnti lcid sec_cfg = Outcome.ok m ∧
    m.reset rnti = Outcome.ok m := by
  refine ⟨data_ops_dropped_of_absent m rnti lcid sdu sns h, ?_, ?_, ?_⟩
  · simp [pdcp_nr.add_bearer, h]
  · simp [pdcp_nr.config_security, h]
  · simp [pdcp_nr.reset, h]

/-! ## The table invariant along executions without fault -/

theorem users_update_mem (t : List (Nat × user_interface)) (k : Nat)
    (f : user_interface → user_interface) (p : Nat × user_interface)
    (hp : p ∈ users_update t k f) :
    ∃ q ∈ t, p.1 = q.1 ∧ (p.2 = q.2 ∨ p.2 = f q.2) := by
  induction t with
  | nil => simp [users_update] at hp
  | cons hd tl ih =>
    obtain ⟨k1, e⟩ := hd
    by_cases hk : k1 = k
    · simp only [users_update, hk, if_true, List.mem_cons] at hp
      rcases hp with hp | hp
      · exact ⟨(k1, e), List.mem_cons_self _ _, by simp [hp, hk], Or.inr (by simp [hp])⟩
      · obtain ⟨q, hq, h1, h2⟩ := ih hp
        exact ⟨q, List.mem_cons_of_mem _ hq, h1, h2⟩
    · simp only [users_update, hk, if_false, List.mem_cons] at hp
      rcases hp with hp | hp
      · exact ⟨(k1, e), List.mem_cons_self _ _, by simp [hp], Or.inl (by simp [hp])⟩
      · obtain ⟨q, hq, h1, h2⟩ := ih hp
        exact ⟨q, List.mem_cons_of_mem _ hq, h1, h2⟩

theorem users_erase_mem (t : List (Nat × user_interface)) (k : Nat) (p : Nat × user_interface)
    (hp : p ∈ users_erase t k) : p ∈ t := by
  induction t with
  | nil => simp [users_erase] at hp
  | cons hd tl ih =>
    obtain ⟨k1, e⟩ := hd
    by_cases hk : k1 = k
    · simp only [users_erase, hk, if_true] at hp
      exact List.mem_cons_of_mem _ (ih hp)
    · simp only [users_erase, hk, if_false, List.mem_cons] at hp
      rcases hp with hp | hp
      · exact List.mem_cons.mpr (Or.inl hp)
      · exact List.mem_cons_of_mem _ (ih hp)

theorem call_pdcp_invariant (rlc rrc sdap : Option Nat) (m m1 : pdcp_nr) (rnti : Nat)
    (c : pdcp_call) (hinv : manager_invariant rlc rrc sdap m)
    (h : m.call_pdcp rnti c = Outcome.ok m1) : manager_invariant rlc rrc sdap m1 := by
  cases hf : users_find m.users rnti with
  | none =>
    rw [call_pdcp_absent m rnti c hf] at h
    cases h
  | some e =>
    cases hp : e.pdcp with
    | none =>
      rw [call_pdcp_null m rnti c e hf hp] at h
      cases h
    | some p =>
      rw [call_pdcp_present m rnti c e p hf hp] at h
      injection h with h
      subst h
      obtain ⟨h1, h2, h3, h4⟩ := hinv
      refine ⟨h1, h2, h3, ?_⟩
      intro q hq
      obtain ⟨q0, hq0, hk, hv⟩ := users_update_mem _ _ _ _ hq
      have hb := h4 q0 hq0
      rw [hk]
      rcases hv with hv | hv
      · rw [hv]
        exact hb
      · rw [hv]
        exact ⟨hb.1, hb.2.1, hb.2.2.1, rfl⟩

theorem stop_loop_collaborators (l : List (Nat × user_interface)) (m m1 : pdcp_nr)
    (h : m.stop_loop l = Outcome.ok m1) :
    m1.m_rlc = m.m_rlc ∧ m1.m_rrc = m.m_rrc ∧ m1.m_sdap = m.m_sdap := by
  induction l generalizing m with
  | nil =>
    simp only [pdcp_nr.stop_loop] at h
    injection h with h
    subst h
    exact ⟨rfl, rfl, rfl⟩
  | cons hd tl ih =>
    obtain ⟨k, e⟩ := hd
    cases hp : e.pdcp with
    | none =>
      simp only [pdcp_nr.stop_loop, hp] at h
      cases h
    | some p =>
      simp only [pdcp_nr.stop_loop, hp] at h
      have h2 := ih _ h
      exact h2

theorem logger_error_invariant (rlc rrc sdap : Option Nat) (m : pdcp_nr) (fmt : String)
    (rnti : Nat) (hinv : manager_invariant rlc rrc sdap m) :
    manager_invariant rlc rrc sdap (m.logger_error fmt rnti) := hinv

theorem step_invariant (rlc rrc sdap : Option Nat) (m m1 : pdcp_nr) (op : Op)
    (hinv : manager_invariant rlc rrc sdap m) (h : m.step op = Outcome.ok m1) :
    manager_invariant rlc rrc sdap m1 := by
  have guarded : ∀ (rnti : Nat) (c : pdcp_call) (alt : pdcp_nr),
      manager_invariant rlc rrc sdap alt →
      (if users_count m.users rnti ≠ 0 then m.call_pdcp rnti c else Outcome.ok alt)
        = Outcome.ok m1 → manager_invariant rlc rrc sdap m1 := by
    intro rnti c alt halt hg
    by_cases hc : users_count m.users rnti ≠ 0
    · rw [if_pos hc] at hg
      exact call_pdcp_invariant rlc rrc sdap m m1 rnti c hinv hg
    · rw [if_neg hc] at hg
      injection hg with hg
      subst hg
      exact halt
  cases op with
  | add_user rnti =>
    simp only [pdcp_nr.step] at h
    by_cases hc : users_count m.users rnti = 0
    · have hf := (users_count_eq_zero_iff _ _).mp hc
      rw [add_user_absent m rnti hf] at h
      injection h with h
      subst h
      obtain ⟨h1, h2, h3, h4⟩ := hinv
      refine ⟨h1, h2, h3, ?_⟩
      intro q hq
      rcases users_insert_mem _ _ _ _ hq with hq | hq
      · subst hq
        simp [entry_bound, fresh_entry, h1, h2, h3]
      · exact h4 q hq
    · rw [add_user_present m rnti hc] at h
      injection h with h
      subst h
      exact hinv
  | rem_user rnti =>
    simp only [pdcp_nr.step, pdcp_nr.rem_user] at h
    injection h with h
    subst h
    obtain ⟨h1, h2, h3, h4⟩ := hinv
    exact ⟨h1, h2, h3, fun q hq => h4 q (users_erase_mem _ _ _ hq)⟩
  | stop =>
    simp only [pdcp_nr.step, pdcp_nr.stop] at h
    cases hl : m.stop_loop m.users with
    | fault m2 =>
      rw [hl] at h
      cases h
    | ok m2 =>
      rw [hl] at h
      simp only [Outcome.bind] at h
      injection h with h
      subst h
      obtain ⟨c1, c2, c3⟩ := stop_loop_collaborators _ _ _ hl
      obtain ⟨h1, h2, h3, _⟩ := hinv
      refine ⟨c1.trans h1, c2.trans h2, c3.trans h3, ?_⟩
      intro q hq
      simp [users_clear] at hq
  | add_bearer rnti lcid cfg => exact guarded rnti _ m hinv h
  | reset rnti => exact guarded rnti _ m hinv h
  | config_security rnti lcid sec_cfg => exact guarded rnti _ m hinv h
  | enable_integrity rnti lcid => exact call_pdcp_invariant rlc rrc sdap m m1 rnti _ hinv h
  | enable_encryption rnti lcid => exact call_pdcp_invariant rlc rrc sdap m m1 rnti _ hinv h
  | write_pdu rnti lcid sdu =>
    exact guarded rnti _ _ (logger_error_invariant rlc rrc sdap m _ rnti hinv) h
  | write_sdu rnti lcid sdu =>
    exact guarded rnti _ _ (logger_error_invariant rlc rrc sdap m _ rnti hinv) h
  | notify_delivery rnti lcid sns =>
    exact guarded rnti _ _ (logger_error_invariant rlc rrc sdap m _ rnti hinv) h
  | notify_failure rnti lcid sns =>
    exact guarded rnti _ _ (logger_error_invariant rlc rrc sdap m _ rnti hinv) h

theorem run_invariant (rlc rrc sdap : Option Nat) (ops : List Op) (m m1 : pdcp_nr)
    (hinv : manager_invariant rlc rrc sdap m) (h : run ops m = Outcome.ok m1) :
    manager_invariant rlc rrc sdap m1 := by
  induction ops generalizing m with
  | nil =>
    simp only [run] at h
    injection h with h
    subst h
    exact hinv
  | cons op ops ih =>
    simp only [run] at h
    cases hs : m.step op with
    | fault m2 =>
      rw [hs] at h
      cases h
    | ok m2 =>
      rw [hs] at h
      exact ih m2 (step_invariant rlc rrc sdap m m2 op hinv hs) h

/-- Every state that an initialised, empty manager reaches by public operations that all
return normally satisfies the table invariant, with the collaborators given at `init`; in
particular each of its entries owns an entity. -/
theorem reachable_without_fault_invariant (task_sched : Nat) (logname : String)
    (args : pdcp_nr_args_t) (rlc rrc sdap : Option Nat) (ops : List Op) (m : pdcp_nr)
    (h : run ops ((pdcp_nr.construct task_sched logname).init args rlc rrc sdap)
      = Outcome.ok m) :
    manager_invariant rlc rrc sdap m ∧ table_invariant m ∧ all_own_entity m.users := by
  have h0 : manager_invariant rlc rrc sdap
      ((pdcp_nr.construct task_sched logname).init args rlc rrc sdap) := by
    refine ⟨rfl, rfl, rfl, ?_⟩
    intro q hq
    simp [pdcp_nr.init, pdcp_nr.construct] at hq
  have h1 := run_invariant rlc rrc sdap ops _ m h0 h
  obtain ⟨e1, e2, e3, e4⟩ := h1
  refine ⟨⟨e1, e2, e3, e4⟩, ?_, ?_⟩
  · intro q hq
    rw [e1, e2, e3]
    exact e4 q hq
  · intro q hq
    exact (e4 q hq).2.2.2

/-! ## Claims -/

/-- C1: `add_user` is idempotent.  On every well-formed table, `add_user(id)` returns
normally; calling it a second time changes nothing, so two calls yield the state of one
call; afterwards exactly one entry is stored under `id`; when `id` was already present the
call changes nothing at all (same entries, same entities, no call on any entity); and the
entries under other keys are the ones present before. -/
theorem add_user_idempotent (m : pdcp_nr) (rnti : Nat) (hwf : users_wf m.users) :
    ∃ m1, m.add_user rnti = Outcome.ok m1
      ∧ (m.add_user rnti).bind (fun m2 => m2.add_user rnti) = Outcome.ok m1
      ∧ users_entries m1.users rnti = 1
      ∧ users_wf m1.users
      ∧ (users_count m.users rnti ≠ 0 → m1 = m)
      ∧ (∀ k, k ≠ rnti → users_find m1.users k = users_find m.users k) := by
  by_cases hc : users_count m.users rnti = 0
  · have hf : users_find m.users rnti = none := (users_count_eq_zero_iff _ _).mp hc
    refine ⟨_, add_user_absent m rnti hf, ?_, ?_, ?_, ?_, ?_⟩
    · rw [add_user_absent m rnti hf]
      simp only [Outcome.bind]
      apply add_user_present
      rw [Ne, users_count_eq_zero_iff]
      simp [users_find_insert_self _ _ _ hf]
    · exact users_entries_insert _ _ _ hf
    · exact users_insert_wf _ _ _ hwf hf
    · intro h
      exact absurd hc h
    · intro k hk
      exact users_find_insert_other _ _ _ _ hk
  · refine ⟨m, add_user_present m rnti hc, ?_, ?_, hwf, fun _ => rfl, fun _ _ => rfl⟩
    · rw [add_user_present m rnti hc]
      simp only [Outcome.bind]
      exact add_user_present m rnti hc
    · have hsome : ∃ e, users_find m.users rnti = some e := by
        cases hfe : users_find m.users rnti with
        | none => exact absurd ((users_count_eq_zero_iff _ _).mpr hfe) hc
        | some e => exact ⟨e, rfl⟩
      obtain ⟨e, he⟩ := hsome
      exact users_entries_of_wf _ _ e hwf he

/-- Witness for C1: connection 5 is added a second time to a manager holding 3 and 5. -/
theorem add_user_idempotent_witness :
    users_wf example_two_users.users ∧
    ∃ m1, example_two_users.add_user 5 = Outcome.ok m1
      ∧ (example_two_users.add_user 5).bind (fun m2 => m2.add_user 5) = Outcome.ok m1
      ∧ users_entries m1.users 5 = 1
      ∧ users_wf m1.users
      ∧ (users_count example_two_users.users 5 ≠ 0 → m1 = example_two_users)
      ∧ (∀ k, k ≠ 5 → users_find m1.users k = users_find example_two_users.users k) :=
  ⟨by unfold users_wf; decide, add_user_idempotent example_two_users 5 (by unfold users_wf; decide)⟩

/-- C2: on an id that has no entry, each of `write_pdu`, `write_sdu`, `notify_delivery`,
`notify_failure`, `add_bearer`, `config_security` and `reset` returns normally, leaves the
table (and every other member) as it was, and makes no call on any protocol entity. -/
theorem absent_id_table_untouched (m : pdcp_nr) (rnti lcid cfg sec_cfg : Nat)
    (sdu sns : List Nat) (h : users_count m.users rnti = 0) :
    table_untouched m (m.write_pdu rnti lcid sdu) ∧
    table_untouched m (m.write_sdu rnti lcid sdu) ∧
    table_untouched m (m.notify_delivery rnti lcid sns) ∧
    table_untouched m (m.notify_failure rnti lcid sns) ∧
    table_untouched m (m.add_bearer rnti lcid cfg) ∧
    table_untouched m (m.config_security rnti lcid sec_cfg) ∧
    table_untouched m (m.reset rnti) := by
  obtain ⟨h1, h2, h3, h4⟩ := data_ops_dropped_of_absent m rnti lcid sdu sns h
  rw [h1, h2, h3, h4]
  refine ⟨table_untouched_of_log _ _ _, table_untouched_of_log _ _ _,
    table_untouched_of_log _ _ _, table_untouched_of_log _ _ _, ?_, ?_, ?_⟩
  · simpa [pdcp_nr.add_bearer, h] using table_untouched_of_same m
  · simpa [pdcp_nr.config_security, h] using table_untouched_of_same m
  · simpa [pdcp_nr.reset, h] using table_untouched_of_same m

/-- Witness for C2: id 99 on a manager holding connections 3 and 5. -/
theorem absent_id_table_untouched_witness :
    users_count example_two_users.users 99 = 0 ∧
    (table_untouched example_two_users (example_two_users.write_pdu 99 1 [7, 8]) ∧
     table_untouched example_two_users (example_two_users.write_sdu 99 1 [7, 8]) ∧
     table_untouched example_two_users (example_two_users.notify_delivery 99 1 [4]) ∧
     table_untouched example_two_users (example_two_users.notify_failure 99 1 [4]) ∧
     table_untouched example_two_users (example_two_users.add_bearer 99 1 2) ∧
     table_untouched example_two_users (example_two_users.config_security 99 1 6) ∧
     table_untouched example_two_users (example_two_users.reset 99)) :=
  ⟨by decide, absent_id_table_untouched example_two_users 99 1 2 6 [7, 8] [4] (by decide)⟩

/-- C3 fails on the code: on an initialised manager without connection 99, `add_bearer`,
`config_security` and `reset` on id 99 return normally and leave the manager, trace included,
as it was; no `logger.error` record for 99 is among the events `add_bearer` appends.  The
four data operations do log on the same input. -/
theorem config_ops_absent_emit_no_log :
    users_count example_init.users 99 = 0 ∧
    example_init.add_bearer 99 1 2 = Outcome.ok example_init ∧
    example_init.config_security 99 1 6 = Outcome.ok example_init ∧
    example_init.reset 99 = Outcome.ok example_init ∧
    (¬ ∃ m1 evs fmt, example_init.add_bearer 99 1 2 = Outcome.ok m1 ∧
        m1.trace = example_init.trace ++ evs ∧ Event.logger_error fmt 99 ∈ evs) ∧
    data_ops_dropped example_init 99 1 [7, 8] [4] := by
  refine ⟨by decide, by decide, by decide, by decide, ?_,
    data_ops_dropped_of_absent example_init 99 1 [7, 8] [4] (by decide)⟩
  rintro ⟨m1, evs, fmt, h1, h2, h3⟩
  have h0 : example_init.add_bearer 99 1 2 = Outcome.ok example_init := by decide
  rw [h0] at h1
  injection h1 with h1
  subst h1
  have hnil : evs = [] := by
    have := congrArg List.length h2
    simp only [List.length_append] at this
    exact List.length_eq_zero.mp (by omega)
  subst hnil
  cases h3

/-- C4 fails on the code: on an initialised manager without connection 5,
`enable_integrity(5, 1)` and `enable_encryption(5, 1)` both end in a null-entity dereference,
after `operator[]` has created an entry for 5 with zeroed adapters and no entity. -/
theorem enable_on_absent_id_faults :
    users_count example_init.users 5 = 0 ∧
    example_init.enable_integrity 5 1 =
      Outcome.fault { example_init with users := [(5, default_user_interface)] } ∧
    example_init.enable_encryption 5 1 =
      Outcome.fault { example_init with users := [(5, default_user_interface)] } := by
  decide

/-- C7 fails on the code: after `add_user(7)`, `rem_user(7)` removes the entry and adds
nothing to the trace; in particular the entity of connection 7 never receives `stop`. -/
theorem rem_user_calls_no_stop :
    ∃ m1 m2, example_init.add_user 7 = Outcome.ok m1 ∧ users_count m1.users 7 = 1 ∧
      m1.rem_user 7 = Outcome.ok m2 ∧ users_count m2.users 7 = 0 ∧
      m2.trace = m1.trace ∧ Event.pdcp_call 7 pdcp_call.stop ∉ m2.trace := by
  refine ⟨(example_init.add_user 7).state, ((example_init.add_user 7).state.rem_user 7).state,
    ?_, ?_, ?_, ?_, ?_, ?_⟩ <;> decide

/-- C5: on every table whose entries own their entity, `stop()` returns normally, its only
events are one `stop` call per entry that existed (in key order, on no other entity), and it
leaves the table empty.  A following `add_user(id)` returns normally and yields the
single-entry table, with a newly constructed entity wired to adapters bound to `id`, that
`add_user(id)` yields on a newly constructed and initialised manager. -/
theorem stop_then_add_user (m : pdcp_nr) (rnti : Nat) (h : all_own_entity m.users) :
    ∃ m1 m2 m3, m.stop = Outcome.ok m1
      ∧ m1 = { m with users := [], trace := m.trace ++ stop_events m.users }
      ∧ m1.add_user rnti = Outcome.ok m2
      ∧ ((pdcp_nr.construct m.task_sched m.logname).init m.m_args m.m_rlc m.m_rrc
          m.m_sdap).add_user rnti = Outcome.ok m3
      ∧ m2.users = m3.users
      ∧ m2.users = [(rnti, fresh_entry m rnti)]
      ∧ m2.trace = m1.trace ++ fresh_events m rnti := by
  obtain ⟨u, hu⟩ := stop_loop_ok m.users m h
  refine ⟨_, _, _, ?_, rfl, add_user_absent _ rnti rfl, add_user_absent _ rnti rfl, ?_, ?_, ?_⟩
  · simp [pdcp_nr.stop, hu, Outcome.bind, users_clear]
  · simp [users_insert, fresh_entry, pdcp_nr.init, pdcp_nr.construct]
  · simp [users_insert, fresh_entry]
  · simp [fresh_events]

/-- Witness for C5: `stop()` on a manager holding connections 3 and 5, then `add_user(9)`. -/
theorem stop_then_add_user_witness :
    all_own_entity example_two_users.users ∧
    ∃ m1 m2 m3, example_two_users.stop = Outcome.ok m1
      ∧ m1 = { example_two_users with
          users := [], trace := example_two_users.trace ++ stop_events example_two_users.users }
      ∧ m1.add_user 9 = Outcome.ok m2
      ∧ ((pdcp_nr.construct example_two_users.task_sched example_two_users.logname).init
          example_two_users.m_args example_two_users.m_rlc example_two_users.m_rrc
          example_two_users.m_sdap).add_user 9 = Outcome.ok m3
      ∧ m2.users = m3.users
      ∧ m2.users = [(9, fresh_entry example_two_users 9)]
      ∧ m2.trace = m1.trace ++ fresh_events example_two_users 9 :=
  ⟨by decide, stop_then_add_user example_two_users 9 (by decide)⟩

/-- C6: `rem_user(id)` returns normally; afterwards no entry is stored under `id`, the entries
under other keys are the ones present before, and on an absent `id` nothing changes.  Each
of the four data operations on `id` after `rem_user(id)` only logs an error carrying `id`.
When `id` was never added, `add_user(id)` followed by `rem_user(id)` restores the table, and
the four data operations then have the effect they have on the manager to which `id` was
never added: the same single log record, no call on an entity, the same table. -/
theorem rem_user_forgets_user (m : pdcp_nr) (rnti lcid : Nat) (sdu sns : List Nat) :
    (∃ m1, m.rem_user rnti = Outcome.ok m1
      ∧ users_count m1.users rnti = 0
      ∧ (∀ k, k ≠ rnti → users_find m1.users k = users_find m.users k)
      ∧ (users_count m.users rnti = 0 → m1 = m)
      ∧ data_ops_dropped m1 rnti lcid sdu sns) ∧
    (users_count m.users rnti = 0 →
      ∃ m2, (m.add_user rnti).bind (fun m1 => m1.rem_user rnti) = Outcome.ok m2
        ∧ m2.users = m.users
        ∧ data_ops_dropped m2 rnti lcid sdu sns
        ∧ data_ops_dropped m rnti lcid sdu sns) := by
  constructor
  · have hc : users_count (users_erase m.users rnti) rnti = 0 :=
      (users_count_eq_zero_iff _ _).mpr (users_find_erase_self _ _)
    refine ⟨_, rfl, hc, ?_, ?_, data_ops_dropped_of_absent _ _ _ _ _ hc⟩
    · intro k hk
      exact users_find_erase_other _ _ _ hk
    · intro h0
      have hf := (users_count_eq_zero_iff _ _).mp h0
      simp [users_erase_absent _ _ hf]
  · intro h0
    have hf := (users_count_eq_zero_iff _ _).mp h0
    have hu : users_erase (users_insert m.users rnti (fresh_entry m rnti)) rnti = m.users :=
      users_erase_insert _ _ _ hf
    refine ⟨_, by rw [add_user_absent m rnti hf]; rfl, hu, ?_,
      data_ops_dropped_of_absent _ _ _ _ _ h0⟩
    apply data_ops_dropped_of_absent
    show users_count (users_erase (users_insert m.users rnti (fresh_entry m rnti)) rnti) rnti = 0
    rw [hu]
    exact h0

/-- Witness for C6: connection 7 is added to and removed from a manager holding 3 and 5. -/
theorem rem_user_forgets_user_witness :
    users_count example_two_users.users 7 = 0 ∧
    ∃ m2, (example_two_users.add_user 7).bind (fun m1 => m1.rem_user 7) = Outcome.ok m2
      ∧ m2.users = example_two_users.users
      ∧ data_ops_dropped m2 7 2 [120] [1]
      ∧ data_ops_dropped example_two_users 7 2 [120] [1] :=
  ⟨by decide, (rem_user_forgets_user example_two_users 7 2 [120] [1]).2 (by decide)⟩

/-- C8: for every bound connection id and every payload, each of the three broadcast and
paging callbacks of the control-plane adapter returns after one error report that carries
the bound id, and makes no call on a collaborator (in particular no `write_pdu`). -/
theorem broadcast_callbacks_report_error (self : user_interface_rrc) (pdu : List Nat) :
    self.write_pdu_bcch_bch pdu =
        some [AdapterEvent.error_report "Error: Received BCCH from ue=%d" self.rnti] ∧
    self.write_pdu_bcch_dlsch pdu =
        some [AdapterEvent.error_report "Error: Received BCCH from ue=%d" self.rnti] ∧
    self.write_pdu_pcch pdu =
        some [AdapterEvent.error_report "Error: Received PCCH from ue=%d" self.rnti] ∧
    no_collaborator_call (self.write_pdu_bcch_bch pdu) ∧
    no_collaborator_call (self.write_pdu_bcch_dlsch pdu) ∧
    no_collaborator_call (self.write_pdu_pcch pdu) := by
  refine ⟨rfl, rfl, rfl, ?_, ?_, ?_⟩ <;>
    exact ⟨_, rfl, by simp [ERROR, AdapterEvent.is_collaborator_call]⟩

/-- C9: an adapter bound to connection id `r` and to the collaborator at address `a`
forwards with `r` re-attached: `write_sdu(b, p)` of the link adapter is exactly one call
`write_sdu(r, b, p)` on the link collaborator, `write_pdu(b, p)` of the control-plane and
data-adaptation adapters is exactly one call `write_pdu(r, b, p)` on their own collaborator,
`rb_is_um(b)` and `sdu_queue_is_full(b)` return the link collaborator's answer for `(r, b)`,
and `discard_sdu` makes no call on a collaborator. -/
theorem adapters_forward_with_bound_id (heap : Nat → rlc_interface_pdcp_nr)
    (r a b sn : Nat) (p : List Nat) :
    user_interface_rlc.write_sdu { rnti := r, rlc := some a } b p =
        some [AdapterEvent.rlc_write_sdu a r b p] ∧
    user_interface_rrc.write_pdu { rnti := r, rrc := some a } b p =
        some [AdapterEvent.rrc_write_pdu a r b p] ∧
    user_interface_sdap.write_pdu { rnti := r, sdap := some a } b p =
        some [AdapterEvent.sdap_write_pdu a r b p] ∧
    user_interface_rlc.rb_is_um heap { rnti := r, rlc := some a } b =
        some ((heap a).rb_is_um r b) ∧
    user_interface_rlc.sdu_queue_is_full heap { rnti := r, rlc := some a } b =
        some ((heap a).sdu_queue_is_full r b) ∧
    no_collaborator_call (user_interface_rlc.discard_sdu { rnti := r, rlc := some a } b sn) := by
  refine ⟨rfl, rfl, rfl, rfl, rfl, _, rfl, ?_⟩
  simp [AdapterEvent.is_collaborator_call]

/-- C10 fails on the code: from an initialised, empty manager the single call
`enable_integrity(5, 1)` reaches, at its null-entity dereference, a table whose entry under
key 5 has adapters bound to id 0 and to no collaborator, and owns no entity. -/
theorem enable_integrity_breaks_table_invariant :
    table_invariant example_init ∧
    ∃ m1, run [Op.enable_integrity 5 1] example_init = Outcome.fault m1 ∧
      users_find m1.users 5 = some default_user_interface ∧
      ¬ entry_bound m1.m_rlc m1.m_rrc m1.m_sdap 5 default_user_interface ∧
      ¬ table_invariant m1 := by
  refine ⟨by decide, (run [Op.enable_integrity 5 1] example_init).state, ?_, ?_, ?_, ?_⟩ <;>
    decide

end srsenb
